import Mathlib

/-!
Verification of the DevMate backend (`src/backend/server.js`).

Strings of the JavaScript runtime are modelled as `List Char`; byte
sequences (Node `Buffer`s) as `List Nat` with every element `< 256`.
Each definition below embeds the correspondingly named piece of the
source file.
-/

set_option linter.unusedVariables false

namespace DevMate

/-! ## JavaScript string primitives -/

/-- The whitespace characters removed by JavaScript `String.prototype.trim`. -/
def jsWhitespaceChar (c : Char) : Bool :=
  c == ' ' || c == '\t' || c == '\n' || c == '\r' ||
  c == '\x0b' || c == '\x0c' ||
  c == Char.ofNat 0xA0 || c == Char.ofNat 0x1680 ||
  (Char.ofNat 0x2000 ≤ c && c ≤ Char.ofNat 0x200A) ||
  c == Char.ofNat 0x2028 || c == Char.ofNat 0x2029 ||
  c == Char.ofNat 0x202F || c == Char.ofNat 0x205F ||
  c == Char.ofNat 0x3000 || c == Char.ofNat 0xFEFF

/-- JavaScript `s.trim()`: drop whitespace from both ends. -/
def trimChars (s : List Char) : List Char :=
  ((s.dropWhile jsWhitespaceChar).reverse.dropWhile jsWhitespaceChar).reverse

/-- Truthiness of a JavaScript string-or-undefined value:
`undefined`, `null` and `""` are falsy. -/
def jsFalsyStr (o : Option (List Char)) : Bool :=
  (o.getD []).isEmpty

/-- Truthiness of a JavaScript number-or-undefined value:
`undefined` and `0` are falsy. -/
def jsFalsyNum (o : Option Nat) : Bool :=
  o.getD 0 == 0

/-- JavaScript `hay.includes(needle)`: substring containment. -/
def jsIncludes (hay needle : List Char) : Bool :=
  match hay with
  | [] => needle.isEmpty
  | c :: rest => needle.isPrefixOf (c :: rest) || jsIncludes rest needle

/-! ## Base64 (Node `Buffer.from(·, 'base64')` / `.toString('base64')`) -/

/-- The 64-character base64 alphabet. -/
def b64Alphabet : List Char :=
  "ABCDEFGHIJKLMNOPQRSTUVWXYZabcdefghijklmnopqrstuvwxyz0123456789+/".toList

/-- Character for a sextet value. -/
def b64tbl (n : Nat) : Char := b64Alphabet.getD n 'A'

/-- Sextet value of a base64 character (`none` for characters outside the
alphabet, which Node's base64 decoder skips). -/
def b64val (c : Char) : Option Nat :=
  if 'A' ≤ c && c ≤ 'Z' then some (c.toNat - 65)
  else if 'a' ≤ c && c ≤ 'z' then some (c.toNat - 97 + 26)
  else if '0' ≤ c && c ≤ '9' then some (c.toNat - 48 + 52)
  else if c == '+' then some 62
  else if c == '/' then some 63
  else none

/-- Canonical base64 encoding of a byte list, with `'='` padding
(`Buffer.toString('base64')`). -/
def b64encodeBytes : List Nat → List Char
  | [] => []
  | [b0] => [b64tbl (b0 / 4), b64tbl (b0 % 4 * 16), '=', '=']
  | [b0, b1] => [b64tbl (b0 / 4), b64tbl (b0 % 4 * 16 + b1 / 16), b64tbl (b1 % 16 * 4), '=']
  | b0 :: b1 :: b2 :: rest =>
    b64tbl (b0 / 4) :: b64tbl (b0 % 4 * 16 + b1 / 16) ::
    b64tbl (b1 % 16 * 4 + b2 / 64) :: b64tbl (b2 % 64) :: b64encodeBytes rest

/-- Reassemble bytes from a list of sextet values; a lone trailing sextet is
dropped, as Node does. -/
def b64decodeSextets : List Nat → List Nat
  | s0 :: s1 :: s2 :: s3 :: rest =>
    (s0 * 4 + s1 / 16) :: (s1 % 16 * 16 + s2 / 4) :: (s2 % 4 * 64 + s3) :: b64decodeSextets rest
  | [s0, s1] => [s0 * 4 + s1 / 16]
  | [s0, s1, s2] => [s0 * 4 + s1 / 16, s1 % 16 * 16 + s2 / 4]
  | _ => []

/-- `Buffer.from(s, 'base64')`: skip non-alphabet characters, then decode. -/
def b64decodeChars (s : List Char) : List Nat :=
  b64decodeSextets (s.filterMap b64val)

/-! ## UTF-8 (Node `Buffer.toString('utf8')` / `Buffer.from(·, 'utf8')`) -/

/-- UTF-8 encoding of one scalar value. -/
def utf8EncodeChar (c : Char) : List Nat :=
  let n := c.toNat
  if n < 0x80 then [n]
  else if n < 0x800 then [0xC0 + n / 0x40, 0x80 + n % 0x40]
  else if n < 0x10000 then [0xE0 + n / 0x1000, 0x80 + n / 0x40 % 0x40, 0x80 + n % 0x40]
  else [0xF0 + n / 0x40000, 0x80 + n / 0x1000 % 0x40, 0x80 + n / 0x40 % 0x40, 0x80 + n % 0x40]

/-- `Buffer.from(s, 'utf8')`: UTF-8 encoding of a string. -/
def utf8Encode : List Char → List Nat
  | [] => []
  | c :: cs => utf8EncodeChar c ++ utf8Encode cs

/-- Lower bound for the first continuation byte of a three-byte sequence. -/
def utf8Cont2Lo (b : Nat) : Nat := if b = 0xE0 then 0xA0 else 0x80

/-- Upper bound (exclusive) for the first continuation byte of a three-byte
sequence; `0xED` caps it to exclude surrogates. -/
def utf8Cont2Hi (b : Nat) : Nat := if b = 0xED then 0xA0 else 0xC0

/-- Lower bound for the first continuation byte of a four-byte sequence. -/
def utf8Cont3Lo (b : Nat) : Nat := if b = 0xF0 then 0x90 else 0x80

/-- Upper bound (exclusive) for the first continuation byte of a four-byte
sequence; `0xF4` caps it to stay below `U+110000`. -/
def utf8Cont3Hi (b : Nat) : Nat := if b = 0xF4 then 0x90 else 0xC0

/-- The Unicode replacement character `U+FFFD`. -/
def replacementChar : Char := Char.ofNat 0xFFFD

/-- Decode one UTF-8 sequence starting at lead byte `b` with following
bytes `rest`: the scalar (or `U+FFFD` for an invalid sequence, consuming
only the lead byte) and the remaining bytes. -/
def utf8DecodeOne (b : Nat) (rest : List Nat) : Char × List Nat :=
  if b < 0x80 then (Char.ofNat b, rest)
  else if 0xC2 ≤ b && b < 0xE0 then
    match rest with
    | b1 :: rest1 =>
      if 0x80 ≤ b1 && b1 < 0xC0 then
        (Char.ofNat ((b - 0xC0) * 0x40 + (b1 - 0x80)), rest1)
      else (replacementChar, rest)
    | [] => (replacementChar, rest)
  else if 0xE0 ≤ b && b < 0xF0 then
    match rest with
    | b1 :: b2 :: rest2 =>
      if (utf8Cont2Lo b ≤ b1 && b1 < utf8Cont2Hi b) && (0x80 ≤ b2 && b2 < 0xC0) then
        (Char.ofNat ((b - 0xE0) * 0x1000 + (b1 - 0x80) * 0x40 + (b2 - 0x80)), rest2)
      else (replacementChar, rest)
    | _ => (replacementChar, rest)
  else if 0xF0 ≤ b && b < 0xF5 then
    match rest with
    | b1 :: b2 :: b3 :: rest3 =>
      if (utf8Cont3Lo b ≤ b1 && b1 < utf8Cont3Hi b) &&
          (0x80 ≤ b2 && b2 < 0xC0) && (0x80 ≤ b3 && b3 < 0xC0) then
        (Char.ofNat ((b - 0xF0) * 0x40000 + (b1 - 0x80) * 0x1000 +
          (b2 - 0x80) * 0x40 + (b3 - 0x80)), rest3)
      else (replacementChar, rest)
    | _ => (replacementChar, rest)
  else (replacementChar, rest)

/-- Fuel-driven UTF-8 decoding loop; each step consumes at least the lead
byte, so `fuel = length` suffices. -/
def utf8DecodeAux : Nat → List Nat → List Char
  | 0, _ => []
  | _, [] => []
  | fuel + 1, b :: rest =>
    let r := utf8DecodeOne b rest
    r.1 :: utf8DecodeAux fuel r.2

/-- `Buffer.toString(\'utf8\')`: UTF-8 decoding with `U+FFFD` replacement of
invalid sequences. -/
def utf8DecodeR (bs : List Nat) : List Char :=
  utf8DecodeAux bs.length bs

/-! ## Output Decoder (`isLikelyBase64` / `safeDecode`, server.js lines 44-72) -/

/-- Strip a trailing run of `'='` characters (`replace(/=+$/, '')`). -/
def stripTrailingEq (s : List Char) : List Char :=
  (s.reverse.dropWhile (· == '=')).reverse

/-- The character class of the quick-reject regex `^[A-Za-z0-9+/=\r\n]+$`. -/
def b64RegexChar (c : Char) : Bool :=
  ('A' ≤ c && c ≤ 'Z') || ('a' ≤ c && c ≤ 'z') || ('0' ≤ c && c ≤ '9') ||
  c == '+' || c == '/' || c == '=' || c == '\r' || c == '\n'

/-- The regex test `^[A-Za-z0-9+/=\r\n]+$` (nonempty, all characters in class). -/
def b64RegexTest (s : List Char) : Bool :=
  !s.isEmpty && s.all b64RegexChar

/-- `isLikelyBase64`: quick regex reject on the trimmed string, then
decode / re-encode and compare after stripping trailing padding. -/
def isLikelyBase64 (s : List Char) : Bool :=
  let maybe := trimChars s
  if !b64RegexTest maybe then false
  else
    let decoded := utf8DecodeR (b64decodeChars maybe)
    let reencoded := stripTrailingEq (b64encodeBytes (utf8Encode decoded))
    let normalized := stripTrailingEq maybe
    reencoded == normalized

/-- `safeDecode` on a present string: decode when likely base64, else return
the original unchanged. -/
def safeDecode (s : List Char) : List Char :=
  if isLikelyBase64 s then utf8DecodeR (b64decodeChars s) else s

/-- `safeDecode` on a possibly absent field: `null`/`undefined` becomes `""`. -/
def safeDecodeOpt : Option (List Char) → List Char
  | none => []
  | some s => safeDecode s

/-! ## Language Resolver (server.js lines 75-81 and 149-183) -/

/-- The static language table `DEFAULT_LANGUAGE_IDS`. -/
def DEFAULT_LANGUAGE_IDS : List (List Char × Nat) :=
  [("python".toList, 71), ("javascript".toList, 63), ("java".toList, 62),
   ("c".toList, 50), ("c++".toList, 54)]

/-- Property lookup `DEFAULT_LANGUAGE_IDS[language]` (exact key match). -/
def lookupDefault (language : List Char) : Option Nat :=
  (DEFAULT_LANGUAGE_IDS.find? fun p => p.1 == language).map Prod.snd

/-- One record of the Judge0 `/languages` catalog; `name`/`slug` may be
absent (`String(l.name || '')`). -/
structure LangRec where
  id : Nat
  name : Option (List Char)
  slug : Option (List Char)
  deriving DecidableEq

/-- The match predicate on one catalog record: the lowercased name or slug
contains the lowercased label. -/
def catalogPred (language : List Char) (l : LangRec) : Bool :=
  jsIncludes ((l.name.getD []).map Char.toLower) (language.map Char.toLower) ||
  jsIncludes ((l.slug.getD []).map Char.toLower) (language.map Char.toLower)

/-- The `find` over the catalog: first record matching `catalogPred`. -/
def catalogFind (language : List Char) (recs : List LangRec) : Option LangRec :=
  recs.find? (catalogPred language)

/-- Language resolution: static table first, else catalog fallback.
`catalog = none` models a failed (or non-array) `/languages` response; the
returned flag records whether the catalog was queried. -/
def resolveLangId (language : List Char) (catalog : Option (List LangRec)) :
    Option Nat × Bool :=
  let local0 := lookupDefault language
  if jsFalsyNum local0 then
    match catalog with
    | none => (local0, true)
    | some recs =>
      match catalogFind language recs with
      | some l => (some l.id, true)
      | none => (local0, true)
  else (local0, false)

/-! ## Job results and the poll loop (server.js lines 207-258) -/

/-- The `status` object of a Judge0 submission result. -/
structure JStatus where
  id : Option Int
  description : Option (List Char)
  deriving DecidableEq

/-- A Judge0 submission result (the fields the handler reads). -/
structure JobResult where
  status : Option JStatus
  stdout : Option (List Char)
  stderr : Option (List Char)
  compile_output : Option (List Char)
  deriving DecidableEq

/-- `resultData?.status?.id ?? 0`. -/
def statusIdOf (r : JobResult) : Int :=
  (r.status.bind JStatus.id).getD 0

/-- `resultData?.status?.description ?? 'Unknown'`. -/
def statusDescOf (r : JobResult) : List Char :=
  (r.status.bind JStatus.description).getD ("Unknown".toList)

/-- `pollIntervalMs = 800`. -/
def pollIntervalMs : Nat := 800

/-- `timeoutMs = 20000`. -/
def pollTimeoutMs : Nat := 20000

/-- The poll loop. `polls k` is the result of the `k`-th status request,
`lat k` the network latency of that iteration in ms; `elapsed` is the time
at the loop-condition check and `last` the last snapshot seen. Returns the
final snapshot (if any) and the total number of status requests issued. -/
def pollLoop (polls : Nat → JobResult) (lat : Nat → Nat) :
    Nat → Nat → Option JobResult → Option JobResult × Nat
  | k, elapsed, last =>
    if elapsed < pollTimeoutMs then
      let p := polls k
      if statusIdOf p > 2 then (some p, k + 1)
      else pollLoop polls lat (k + 1) (elapsed + lat k + pollIntervalMs) (some p)
    else (last, k)
  termination_by k elapsed last => pollTimeoutMs - elapsed
  decreasing_by simp only [pollIntervalMs, pollTimeoutMs] at *; omega

/-- Output stream precedence (server.js lines 245-251): JS string truthiness
for both the stream and its trimmed form. -/
def selectOutput (compileOutput stderr stdout : List Char) : List Char :=
  if !compileOutput.isEmpty && !(trimChars compileOutput).isEmpty then compileOutput
  else if !stderr.isEmpty && !(trimChars stderr).isEmpty then stderr
  else if !stdout.isEmpty && !(trimChars stdout).isEmpty then stdout
  else "No output".toList

/-- Decode the three streams of a result and apply the precedence rule. -/
def executeOutput (rd : JobResult) : List Char :=
  selectOutput (safeDecodeOpt rd.compile_output) (safeDecodeOpt rd.stderr)
    (safeDecodeOpt rd.stdout)

/-! ## The HTTP handlers (server.js lines 87-265) -/

/-- One outbound network call made by a handler. -/
inductive UpCall where
  | catalogQuery
  | submission (langId : Nat)
  | statusPoll
  | gemini
  deriving DecidableEq

/-- Response of the `/api/execute` handler. -/
inductive ExecResponse where
  | ok (output status token : List Char) (raw : JobResult)
  | clientError (error : List Char)
  | serverError (error : List Char)
  deriving DecidableEq

/-- Response of the `/api/explain` and `/api/improve` handlers. -/
inductive TextResponse where
  | ok (text : List Char)
  | clientError (error : List Char)
  | serverError (error : List Char)
  deriving DecidableEq

def requiredMsg : List Char := "Code and language required".toList

def unsupportedMsg (language : List Char) : List Char :=
  "Unsupported language: ".toList ++ language

def noTokenMsg : List Char := "Judge0 did not return a token".toList

def noResultMsg : List Char := "No result received from Judge0".toList

def executionFailedMsg : List Char := "Execution failed".toList

/-- External behaviour visible to one `/api/execute` request:
the catalog response, the submission response (`none` = network throw,
`some none` = 200 without token, `some (some t)` = token `t`), and the
poll responses with their latencies. -/
structure ExecEnv where
  catalog : Option (List LangRec)
  submit : Option (Option (List Char))
  polls : Nat → JobResult
  lat : Nat → Nat

/-- The `/api/execute` handler: validation, language resolution, submission,
poll loop, decode and respond. Also returns the list of outbound calls. -/
def executeHandler (code language : Option (List Char)) (env : ExecEnv) :
    ExecResponse × List UpCall :=
  if jsFalsyStr code || jsFalsyStr language then (.clientError requiredMsg, [])
  else
    let lang := language.getD []
    let resolved := resolveLangId lang env.catalog
    let preCalls := if resolved.2 then [UpCall.catalogQuery] else []
    if jsFalsyNum resolved.1 then (.clientError (unsupportedMsg lang), preCalls)
    else
      let langId := resolved.1.getD 0
      match env.submit with
      | none => (.serverError executionFailedMsg, preCalls ++ [.submission langId])
      | some none => (.serverError noTokenMsg, preCalls ++ [.submission langId])
      | some (some token) =>
        let looped := pollLoop env.polls env.lat 0 0 none
        let calls := preCalls ++ [.submission langId] ++ List.replicate looped.2 .statusPoll
        match looped.1 with
        | none => (.serverError noResultMsg, calls)
        | some rd => (.ok (executeOutput rd) (statusDescOf rd) token rd, calls)

def explainFailedMsg : List Char := "Failed to generate explanation".toList

def improveFailedMsg : List Char := "Failed to generate improvements".toList

def noExplanationMsg : List Char := "No explanation generated".toList

def noCorrectionReqMsg : List Char := "No correction required".toList

def noCorrectionGenMsg : List Char := "No correction generated".toList

/-- The `/api/explain` handler. `gem` is the model's behaviour: `none` = the
request throws, `some t` = completion text `t` (`none` inside = no text
method, giving `''`). -/
def explainHandler (code language : Option (List Char))
    (gem : Option (Option (List Char))) : TextResponse × List UpCall :=
  if jsFalsyStr code || jsFalsyStr language then (.clientError requiredMsg, [])
  else
    match gem with
    | none => (.serverError explainFailedMsg, [.gemini])
    | some t =>
      let text := t.getD []
      (.ok (if text.isEmpty then noExplanationMsg else text), [.gemini])

/-- The `/api/improve` handler, with its sentinel normalization. -/
def improveHandler (code language : Option (List Char))
    (gem : Option (Option (List Char))) : TextResponse × List UpCall :=
  if jsFalsyStr code || jsFalsyStr language then (.clientError requiredMsg, [])
  else
    match gem with
    | none => (.serverError improveFailedMsg, [.gemini])
    | some t =>
      let improvedCode := t.getD []
      (.ok (if jsIncludes improvedCode noCorrectionReqMsg then noCorrectionReqMsg
            else if (trimChars improvedCode).isEmpty then noCorrectionGenMsg
            else trimChars improvedCode), [.gemini])

/-! ## Helper lemmas -/

theorem mem_dropWhile_of_neg {α} {p : α → Bool} {a : α} {l : List α}
    (h : a ∈ l) (hp : p a = false) : a ∈ l.dropWhile p := by
  induction l with
  | nil => simp at h
  | cons x xs ih =>
    rcases List.mem_cons.mp h with rfl | hm
    · simp [List.dropWhile_cons, hp]
    · by_cases hx : p x = true
      · simpa [List.dropWhile_cons, hx] using ih hm
      · simp only [List.dropWhile_cons, Bool.eq_false_iff.mpr hx]
        simp [hm]

theorem mem_trimChars {c : Char} {s : List Char}
    (hc : c ∈ s) (hw : jsWhitespaceChar c = false) : c ∈ trimChars s := by
  unfold trimChars
  rw [List.mem_reverse]
  exact mem_dropWhile_of_neg (List.mem_reverse.mpr (mem_dropWhile_of_neg hc hw)) hw

theorem dropWhile_eq_self_of_all {α} {p : α → Bool} {l : List α}
    (h : ∀ a ∈ l, p a = false) : l.dropWhile p = l := by
  cases l with
  | nil => rfl
  | cons x xs => simp [List.dropWhile_cons, h x (List.mem_cons_self x xs)]

theorem trimChars_eq_self {s : List Char}
    (h : ∀ c ∈ s, jsWhitespaceChar c = false) : trimChars s = s := by
  unfold trimChars
  rw [dropWhile_eq_self_of_all h]
  rw [dropWhile_eq_self_of_all (fun a ha => h a (List.mem_reverse.mp ha))]
  exact List.reverse_reverse s

theorem trimChars_nil : trimChars [] = [] := rfl

theorem isEmpty_false_of_trim_ne {x : List Char} (hx : trimChars x ≠ []) :
    x.isEmpty = false := by
  cases x with
  | nil => exact absurd trimChars_nil hx
  | cons a l => rfl

/-! ## C1: output stream precedence -/

def sampleCompileErr : JobResult :=
  { status := none, stdout := some "ok".toList, stderr := some "err".toList,
    compile_output := some "boom".toList }

def sampleStderr : JobResult :=
  { status := none, stdout := some "ok".toList, stderr := some "err".toList,
    compile_output := none }

def sampleStdout : JobResult :=
  { status := none, stdout := some "ok".toList, stderr := some "  ".toList,
    compile_output := none }

def sampleEmpty : JobResult :=
  { status := none, stdout := none, stderr := some "".toList, compile_output := none }

/-- C1: the display output of a job result follows the fixed precedence:
a compile output that is non-empty after trimming wins, else such a stderr,
else such a stdout, else the literal `"No output"`. -/
theorem execute_output_precedence (r : JobResult) :
    (trimChars (safeDecodeOpt r.compile_output) ≠ [] →
      executeOutput r = safeDecodeOpt r.compile_output) ∧
    (trimChars (safeDecodeOpt r.compile_output) = [] →
      trimChars (safeDecodeOpt r.stderr) ≠ [] →
      executeOutput r = safeDecodeOpt r.stderr) ∧
    (trimChars (safeDecodeOpt r.compile_output) = [] →
      trimChars (safeDecodeOpt r.stderr) = [] →
      trimChars (safeDecodeOpt r.stdout) ≠ [] →
      executeOutput r = safeDecodeOpt r.stdout) ∧
    (trimChars (safeDecodeOpt r.compile_output) = [] →
      trimChars (safeDecodeOpt r.stderr) = [] →
      trimChars (safeDecodeOpt r.stdout) = [] →
      executeOutput r = "No output".toList) := by
  refine ⟨?_, ?_, ?_, ?_⟩
  · intro h1
    simp [executeOutput, selectOutput, isEmpty_false_of_trim_ne h1,
      List.isEmpty_iff, h1]
  · intro h1 h2
    simp [executeOutput, selectOutput, isEmpty_false_of_trim_ne h2,
      List.isEmpty_iff, h1, h2]
  · intro h1 h2 h3
    simp [executeOutput, selectOutput, isEmpty_false_of_trim_ne h3,
      List.isEmpty_iff, h1, h2, h3]
  · intro h1 h2 h3
    simp [executeOutput, selectOutput, List.isEmpty_iff, h1, h2, h3]

/-- Witness for C1 at four concrete job results, one per precedence level. -/
theorem execute_output_precedence_witness :
    (trimChars (safeDecodeOpt sampleCompileErr.compile_output) ≠ [] ∧
      executeOutput sampleCompileErr = safeDecodeOpt sampleCompileErr.compile_output) ∧
    (trimChars (safeDecodeOpt sampleStderr.compile_output) = [] ∧
      trimChars (safeDecodeOpt sampleStderr.stderr) ≠ [] ∧
      executeOutput sampleStderr = safeDecodeOpt sampleStderr.stderr) ∧
    (trimChars (safeDecodeOpt sampleStdout.compile_output) = [] ∧
      trimChars (safeDecodeOpt sampleStdout.stderr) = [] ∧
      trimChars (safeDecodeOpt sampleStdout.stdout) ≠ [] ∧
      executeOutput sampleStdout = safeDecodeOpt sampleStdout.stdout) ∧
    (trimChars (safeDecodeOpt sampleEmpty.compile_output) = [] ∧
      trimChars (safeDecodeOpt sampleEmpty.stderr) = [] ∧
      trimChars (safeDecodeOpt sampleEmpty.stdout) = [] ∧
      executeOutput sampleEmpty = "No output".toList) :=
  ⟨⟨by decide, (execute_output_precedence sampleCompileErr).1 (by decide)⟩,
   ⟨by decide, by decide,
     (execute_output_precedence sampleStderr).2.1 (by decide) (by decide)⟩,
   ⟨by decide, by decide, by decide,
     (execute_output_precedence sampleStdout).2.2.1 (by decide) (by decide) (by decide)⟩,
   ⟨by decide, by decide, by decide,
     (execute_output_precedence sampleEmpty).2.2.2 (by decide) (by decide) (by decide)⟩⟩

/-! ## C3: plain text outside the base64 alphabet is returned unchanged -/

/-- The claim's character class: letters, digits, `'+'`, `'/'`, `'='`, and
whitespace. -/
def b64ClaimAlphabet (c : Char) : Bool :=
  ('A' ≤ c && c ≤ 'Z') || ('a' ≤ c && c ≤ 'z') || ('0' ≤ c && c ≤ '9') ||
  c == '+' || c == '/' || c == '=' || jsWhitespaceChar c

/-- C3: a string containing a character outside the base64 alphabet
(letters, digits, `'+'`, `'/'`, `'='`, whitespace) is returned unchanged
by the output decoder. -/
theorem safeDecode_plaintext_unchanged (s : List Char) (c : Char)
    (hc : c ∈ s) (ha : b64ClaimAlphabet c = false) : safeDecode s = s := by
  have hw : jsWhitespaceChar c = false := by
    cases hws : jsWhitespaceChar c with
    | false => rfl
    | true => rw [b64ClaimAlphabet, hws] at ha; simp at ha
  have hrc : b64RegexChar c = false := by
    simp only [b64ClaimAlphabet, Bool.or_eq_false_iff] at ha
    have hcr : (c == '\r') = false := by
      cases h : c == '\r' with
      | false => rfl
      | true =>
        rw [jsWhitespaceChar, h] at hw; simp at hw
    have hcn : (c == '\n') = false := by
      cases h : c == '\n' with
      | false => rfl
      | true =>
        rw [jsWhitespaceChar, h] at hw; simp at hw
    simp only [b64RegexChar, Bool.or_eq_false_iff]
    exact ⟨⟨⟨⟨⟨⟨⟨ha.1.1.1.1.1.1, ha.1.1.1.1.1.2⟩, ha.1.1.1.1.2⟩,
      ha.1.1.1.2⟩, ha.1.1.2⟩, ha.1.2⟩, hcr⟩, hcn⟩
  have hmem : c ∈ trimChars s := mem_trimChars hc hw
  have htest : b64RegexTest (trimChars s) = false := by
    simp only [b64RegexTest, Bool.and_eq_false_iff]
    right
    rw [List.all_eq_false]
    exact ⟨c, hmem, by rw [hrc]; decide⟩
  have hlikely : isLikelyBase64 s = false := by
    rw [isLikelyBase64, htest]
    rfl
  rw [safeDecode, hlikely]
  rfl

/-- Witness for C3: `"hello world!"` contains `'!'`, which is outside the
alphabet, and is returned unchanged. -/
theorem safeDecode_plaintext_unchanged_witness :
    ('!' ∈ "hello world!".toList ∧ b64ClaimAlphabet '!' = false) ∧
    safeDecode ("hello world!".toList) = "hello world!".toList :=
  ⟨⟨by decide, by decide⟩,
    safeDecode_plaintext_unchanged _ '!' (by decide) (by decide)⟩

/-! ## Base64 round trip -/

theorem b64val_tbl : ∀ n, n < 64 → b64val (b64tbl n) = some n := by decide

theorem b64val_pad : b64val '=' = none := by decide

theorem b64_roundtrip : ∀ bs : List Nat, (∀ b ∈ bs, b < 256) →
    b64decodeChars (b64encodeBytes bs) = bs := by
  intro bs h
  induction bs using b64encodeBytes.induct with
  | case1 => rfl
  | case2 b0 =>
    have hb0 : b0 < 256 := h b0 (by simp)
    have h0 : b64val (b64tbl (b0 / 4)) = some (b0 / 4) := b64val_tbl _ (by omega)
    have h1 : b64val (b64tbl (b0 % 4 * 16)) = some (b0 % 4 * 16) := b64val_tbl _ (by omega)
    simp only [b64encodeBytes, b64decodeChars, List.filterMap_cons, h0, h1, b64val_pad,
      List.filterMap_nil, b64decodeSextets, List.cons.injEq, and_true]
    omega
  | case3 b0 b1 =>
    have hb0 : b0 < 256 := h b0 (by simp)
    have hb1 : b1 < 256 := h b1 (by simp)
    have h0 : b64val (b64tbl (b0 / 4)) = some (b0 / 4) := b64val_tbl _ (by omega)
    have h1 : b64val (b64tbl (b0 % 4 * 16 + b1 / 16)) = some (b0 % 4 * 16 + b1 / 16) :=
      b64val_tbl _ (by omega)
    have h2 : b64val (b64tbl (b1 % 16 * 4)) = some (b1 % 16 * 4) := b64val_tbl _ (by omega)
    simp only [b64encodeBytes, b64decodeChars, List.filterMap_cons, h0, h1, h2, b64val_pad,
      List.filterMap_nil, b64decodeSextets, List.cons.injEq, and_true]
    omega
  | case4 b0 b1 b2 rest ih =>
    have hb0 : b0 < 256 := h b0 (by simp)
    have hb1 : b1 < 256 := h b1 (by simp)
    have hb2 : b2 < 256 := h b2 (by simp)
    have h0 : b64val (b64tbl (b0 / 4)) = some (b0 / 4) := b64val_tbl _ (by omega)
    have h1 : b64val (b64tbl (b0 % 4 * 16 + b1 / 16)) = some (b0 % 4 * 16 + b1 / 16) :=
      b64val_tbl _ (by omega)
    have h2 : b64val (b64tbl (b1 % 16 * 4 + b2 / 64)) = some (b1 % 16 * 4 + b2 / 64) :=
      b64val_tbl _ (by omega)
    have h3 : b64val (b64tbl (b2 % 64)) = some (b2 % 64) := b64val_tbl _ (by omega)
    have ih2 := ih (fun b hb => h b (by simp [hb]))
    simp only [b64decodeChars] at ih2
    simp only [b64encodeBytes, b64decodeChars, List.filterMap_cons, h0, h1, h2, h3,
      b64decodeSextets, ih2, List.cons.injEq, and_true]
    omega

/-! ## UTF-8 round trip -/

theorem utf8DecodeOne_one {n : Nat} (h : n < 0x80) (bs : List Nat) :
    utf8DecodeOne n bs = (Char.ofNat n, bs) := by
  rw [utf8DecodeOne.eq_def, if_pos h]

theorem utf8DecodeOne_two {n : Nat} (h1 : 0x80 ≤ n) (h2 : n < 0x800) (bs : List Nat) :
    utf8DecodeOne (0xC0 + n / 0x40) ((0x80 + n % 0x40) :: bs) = (Char.ofNat n, bs) := by
  rw [utf8DecodeOne.eq_def]
  rw [if_neg (by omega)]
  rw [if_pos (by simp only [Bool.and_eq_true, decide_eq_true_eq]; omega)]
  simp only []
  rw [if_pos (by simp only [Bool.and_eq_true, decide_eq_true_eq]; omega)]
  have e : (0xC0 + n / 0x40 - 0xC0) * 0x40 + (0x80 + n % 0x40 - 0x80) = n := by omega
  rw [e]

theorem utf8DecodeOne_three {n : Nat} (h1 : 0x800 ≤ n) (h2 : n < 0x10000)
    (hs : n < 0xD800 ∨ 0xDFFF < n) (bs : List Nat) :
    utf8DecodeOne (0xE0 + n / 0x1000) ((0x80 + n / 0x40 % 0x40) :: (0x80 + n % 0x40) :: bs) =
      (Char.ofNat n, bs) := by
  rw [utf8DecodeOne.eq_def]
  rw [if_neg (by omega)]
  rw [if_neg (by simp only [Bool.and_eq_true, decide_eq_true_eq, not_and]; omega)]
  rw [if_pos (by simp only [Bool.and_eq_true, decide_eq_true_eq]; omega)]
  simp only []
  rw [if_pos ?cond]
  case cond =>
    simp only [utf8Cont2Lo, utf8Cont2Hi, Bool.and_eq_true, decide_eq_true_eq]
    rcases hs with hs | hs <;> split_ifs <;> omega
  have e : (0xE0 + n / 0x1000 - 0xE0) * 0x1000 + (0x80 + n / 0x40 % 0x40 - 0x80) * 0x40 +
      (0x80 + n % 0x40 - 0x80) = n := by omega
  rw [e]

theorem utf8DecodeOne_four {n : Nat} (h1 : 0x10000 ≤ n) (h2 : n < 0x110000) (bs : List Nat) :
    utf8DecodeOne (0xF0 + n / 0x40000)
      ((0x80 + n / 0x1000 % 0x40) :: (0x80 + n / 0x40 % 0x40) :: (0x80 + n % 0x40) :: bs) =
      (Char.ofNat n, bs) := by
  rw [utf8DecodeOne.eq_def]
  rw [if_neg (by omega)]
  rw [if_neg (by simp only [Bool.and_eq_true, decide_eq_true_eq, not_and]; omega)]
  rw [if_neg (by simp only [Bool.and_eq_true, decide_eq_true_eq, not_and]; omega)]
  rw [if_pos (by simp only [Bool.and_eq_true, decide_eq_true_eq]; omega)]
  simp only []
  rw [if_pos ?cond]
  case cond =>
    simp only [utf8Cont3Lo, utf8Cont3Hi, Bool.and_eq_true, decide_eq_true_eq]
    split_ifs <;> omega
  have e : (0xF0 + n / 0x40000 - 0xF0) * 0x40000 + (0x80 + n / 0x1000 % 0x40 - 0x80) * 0x1000 +
      (0x80 + n / 0x40 % 0x40 - 0x80) * 0x40 + (0x80 + n % 0x40 - 0x80) = n := by omega
  rw [e]

/-- Validity of a `Char` scalar value, at the `Nat` level. -/
theorem char_toNat_valid (c : Char) :
    c.toNat < 0xD800 ∨ (0xDFFF < c.toNat ∧ c.toNat < 0x110000) := c.valid

theorem utf8DecodeAux_encode : ∀ (cs : List Char) (fuel : Nat),
    (utf8Encode cs).length ≤ fuel → utf8DecodeAux fuel (utf8Encode cs) = cs := by
  intro cs
  induction cs with
  | nil => intro fuel hf; cases fuel <;> rfl
  | cons c cs ih =>
    intro fuel hf
    have hv := char_toNat_valid c
    rw [utf8Encode] at hf ⊢
    by_cases h1 : c.toNat < 0x80
    · have he : utf8EncodeChar c = [c.toNat] := by simp [utf8EncodeChar, h1]
      rw [he] at hf ⊢
      simp only [List.length_append, List.length_cons, List.length_nil] at hf
      cases fuel with
      | zero => omega
      | succ f =>
        rw [List.cons_append, List.nil_append]
        simp only [utf8DecodeAux, utf8DecodeOne_one h1]
        rw [Char.ofNat_toNat, ih f (by omega)]
    · by_cases h2 : c.toNat < 0x800
      · have he : utf8EncodeChar c = [0xC0 + c.toNat / 0x40, 0x80 + c.toNat % 0x40] := by
          simp [utf8EncodeChar, h1, h2]
        rw [he] at hf ⊢
        simp only [List.length_append, List.length_cons, List.length_nil] at hf
        cases fuel with
        | zero => omega
        | succ f =>
          simp only [List.cons_append, List.nil_append]
          simp only [utf8DecodeAux, utf8DecodeOne_two (by omega) h2]
          rw [Char.ofNat_toNat, ih f (by omega)]
      · by_cases h3 : c.toNat < 0x10000
        · have hs : c.toNat < 0xD800 ∨ 0xDFFF < c.toNat := by
            rcases hv with h | h
            · exact Or.inl h
            · exact Or.inr h.1
          have he : utf8EncodeChar c = [0xE0 + c.toNat / 0x1000, 0x80 + c.toNat / 0x40 % 0x40,
              0x80 + c.toNat % 0x40] := by
            simp [utf8EncodeChar, h1, h2, h3]
          rw [he] at hf ⊢
          simp only [List.length_append, List.length_cons, List.length_nil] at hf
          cases fuel with
          | zero => omega
          | succ f =>
            simp only [List.cons_append, List.nil_append]
            simp only [utf8DecodeAux, utf8DecodeOne_three (by omega) h3 hs]
            rw [Char.ofNat_toNat, ih f (by omega)]
        · have h4 : c.toNat < 0x110000 := by
            rcases hv with h | h
            · omega
            · exact h.2
          have he : utf8EncodeChar c = [0xF0 + c.toNat / 0x40000, 0x80 + c.toNat / 0x1000 % 0x40,
              0x80 + c.toNat / 0x40 % 0x40, 0x80 + c.toNat % 0x40] := by
            simp [utf8EncodeChar, h1, h2, h3]
          rw [he] at hf ⊢
          simp only [List.length_append, List.length_cons, List.length_nil] at hf
          cases fuel with
          | zero => omega
          | succ f =>
            simp only [List.cons_append, List.nil_append]
            simp only [utf8DecodeAux, utf8DecodeOne_four (by omega) h4]
            rw [Char.ofNat_toNat, ih f (by omega)]

theorem utf8_roundtrip (cs : List Char) : utf8DecodeR (utf8Encode cs) = cs :=
  utf8DecodeAux_encode cs _ (Nat.le_refl _)

/-! ## C2: the decoder round-trips base64-encoded byte sequences -/

theorem utf8EncodeChar_lt_256 (c : Char) : ∀ b ∈ utf8EncodeChar c, b < 256 := by
  have hv := char_toNat_valid c
  have h4 : c.toNat < 0x110000 := by
    rcases hv with h | h
    · omega
    · exact h.2
  intro b hb
  simp only [utf8EncodeChar] at hb
  split_ifs at hb <;>
    simp only [List.mem_cons, List.not_mem_nil, or_false] at hb
  · subst hb; omega
  · rcases hb with rfl | rfl <;> omega
  · rcases hb with rfl | rfl | rfl <;> omega
  · rcases hb with rfl | rfl | rfl | rfl <;> omega

theorem utf8Encode_lt_256 (cs : List Char) : ∀ b ∈ utf8Encode cs, b < 256 := by
  induction cs with
  | nil => intro b hb; simp [utf8Encode] at hb
  | cons c cs ih =>
    intro b hb
    rw [utf8Encode, List.mem_append] at hb
    rcases hb with hb | hb
    · exact utf8EncodeChar_lt_256 c b hb
    · exact ih b hb

theorem b64tbl_regexChar_lt : ∀ n, n < 64 → b64RegexChar (b64tbl n) = true := by decide

theorem b64tbl_not_ws_lt : ∀ n, n < 64 → jsWhitespaceChar (b64tbl n) = false := by decide

theorem b64Alphabet_length : b64Alphabet.length = 64 := by decide

theorem b64tbl_regexChar (n : Nat) : b64RegexChar (b64tbl n) = true := by
  by_cases h : n < 64
  · exact b64tbl_regexChar_lt n h
  · rw [b64tbl, List.getD_eq_default _ _ (by rw [b64Alphabet_length]; omega)]
    decide

theorem b64tbl_not_ws (n : Nat) : jsWhitespaceChar (b64tbl n) = false := by
  by_cases h : n < 64
  · exact b64tbl_not_ws_lt n h
  · rw [b64tbl, List.getD_eq_default _ _ (by rw [b64Alphabet_length]; omega)]
    decide

theorem b64encodeBytes_chars : ∀ (bs : List Nat), ∀ c ∈ b64encodeBytes bs,
    b64RegexChar c = true ∧ jsWhitespaceChar c = false := by
  intro bs
  induction bs using b64encodeBytes.induct with
  | case1 => intro c hc; simp [b64encodeBytes] at hc
  | case2 b0 =>
    intro c hc
    simp only [b64encodeBytes, List.mem_cons, List.not_mem_nil, or_false] at hc
    rcases hc with rfl | rfl | rfl | rfl
    · exact ⟨b64tbl_regexChar _, b64tbl_not_ws _⟩
    · exact ⟨b64tbl_regexChar _, b64tbl_not_ws _⟩
    · exact ⟨by decide, by decide⟩
    · exact ⟨by decide, by decide⟩
  | case3 b0 b1 =>
    intro c hc
    simp only [b64encodeBytes, List.mem_cons, List.not_mem_nil, or_false] at hc
    rcases hc with rfl | rfl | rfl | rfl
    · exact ⟨b64tbl_regexChar _, b64tbl_not_ws _⟩
    · exact ⟨b64tbl_regexChar _, b64tbl_not_ws _⟩
    · exact ⟨b64tbl_regexChar _, b64tbl_not_ws _⟩
    · exact ⟨by decide, by decide⟩
  | case4 b0 b1 b2 rest ih =>
    intro c hc
    simp only [b64encodeBytes, List.mem_cons] at hc
    rcases hc with rfl | rfl | rfl | rfl | hc
    · exact ⟨b64tbl_regexChar _, b64tbl_not_ws _⟩
    · exact ⟨b64tbl_regexChar _, b64tbl_not_ws _⟩
    · exact ⟨b64tbl_regexChar _, b64tbl_not_ws _⟩
    · exact ⟨b64tbl_regexChar _, b64tbl_not_ws _⟩
    · exact ih c hc

theorem utf8EncodeChar_ne_nil (c : Char) : utf8EncodeChar c ≠ [] := by
  simp only [utf8EncodeChar]
  split_ifs <;> simp

theorem utf8Encode_ne_nil {cs : List Char} (h : cs ≠ []) : utf8Encode cs ≠ [] := by
  cases cs with
  | nil => exact absurd rfl h
  | cons c cs =>
    rw [utf8Encode]
    intro he
    exact utf8EncodeChar_ne_nil c (List.append_eq_nil.mp he).1

theorem b64encodeBytes_ne_nil : ∀ {bs : List Nat}, bs ≠ [] → b64encodeBytes bs ≠ [] := by
  intro bs h
  rcases bs with _ | ⟨b0, _ | ⟨b1, _ | ⟨b2, rest⟩⟩⟩ <;> simp [b64encodeBytes] at h ⊢

/-- C2 (amended): for every string, base64-encoding its UTF-8 bytes and
passing the result through the output decoder yields the string (hence the
byte sequence) back. Byte sequences that are not valid UTF-8 do not
round-trip; see the counterexample. -/
theorem safeDecode_utf8_roundtrip (cs : List Char) :
    safeDecode (b64encodeBytes (utf8Encode cs)) = cs := by
  by_cases hnil : cs = []
  · subst hnil; rfl
  · have hchars := b64encodeBytes_chars (utf8Encode cs)
    have htrim : trimChars (b64encodeBytes (utf8Encode cs)) = b64encodeBytes (utf8Encode cs) :=
      trimChars_eq_self (fun c hc => (hchars c hc).2)
    have hmne : b64encodeBytes (utf8Encode cs) ≠ [] :=
      b64encodeBytes_ne_nil (utf8Encode_ne_nil hnil)
    have htest : b64RegexTest (b64encodeBytes (utf8Encode cs)) = true := by
      rw [b64RegexTest]
      simp only [Bool.and_eq_true, Bool.not_eq_eq_eq_not, Bool.not_false, List.all_eq_true]
      constructor
      · cases hcs : b64encodeBytes (utf8Encode cs) with
        | nil => exact absurd hcs hmne
        | cons a l => rfl
      · exact fun c hc => (hchars c hc).1
    have hdec : b64decodeChars (b64encodeBytes (utf8Encode cs)) = utf8Encode cs :=
      b64_roundtrip _ (utf8Encode_lt_256 cs)
    have hlikely : isLikelyBase64 (b64encodeBytes (utf8Encode cs)) = true := by
      simp only [isLikelyBase64, htrim, htest, Bool.not_true, Bool.false_eq_true,
        if_false, hdec, utf8_roundtrip]
      exact beq_self_eq_true _
    rw [safeDecode, if_pos hlikely, hdec, utf8_roundtrip]

/-- Counterexample to C2 as stated: the byte sequence `[0xFF]` is not valid
UTF-8; its base64 encoding `"/w=="` fails the decoder's round-trip check and
is returned still encoded, not as the original byte. -/
theorem safeDecode_roundtrip_cex :
    b64encodeBytes [255] = "/w==".toList ∧
    safeDecode ("/w==".toList) = "/w==".toList ∧
    utf8Encode ("/w==".toList) ≠ [255] := by decide

/-! ## Poll loop lemmas -/

theorem pollLoop_stop (polls : Nat → JobResult) (lat : Nat → Nat) (k e : Nat)
    (last : Option JobResult) (he : e < pollTimeoutMs) (ht : 2 < statusIdOf (polls k)) :
    pollLoop polls lat k e last = (some (polls k), k + 1) := by
  rw [pollLoop, if_pos he]
  simp only [if_pos ht]

theorem pollLoop_cont (polls : Nat → JobResult) (lat : Nat → Nat) (k e : Nat)
    (last : Option JobResult) (he : e < pollTimeoutMs) (hc : ¬ 2 < statusIdOf (polls k)) :
    pollLoop polls lat k e last =
      pollLoop polls lat (k + 1) (e + lat k + pollIntervalMs) (some (polls k)) := by
  rw [pollLoop, if_pos he]
  simp only [if_neg hc]

theorem pollLoop_timeout (polls : Nat → JobResult) (lat : Nat → Nat) (k e : Nat)
    (last : Option JobResult) (he : ¬ e < pollTimeoutMs) :
    pollLoop polls lat k e last = (last, k) := by
  rw [pollLoop, if_neg he]

theorem pollLoop_isSome_mono (polls : Nat → JobResult) (lat : Nat → Nat) :
    ∀ k e last, (e < pollTimeoutMs ∨ last.isSome = true) →
      ((pollLoop polls lat k e last).1).isSome = true := by
  refine pollLoop.induct polls lat
    (fun k e last => (e < pollTimeoutMs ∨ last.isSome = true) →
      ((pollLoop polls lat k e last).1).isSome = true) ?_ ?_ ?_
  · intro k e last he p hp _
    have hp2 : 2 < statusIdOf (polls k) := hp
    rw [pollLoop_stop polls lat k e last he hp2]
    rfl
  · intro k e last he p hc ih _
    have hc2 : ¬ 2 < statusIdOf (polls k) := hc
    rw [pollLoop_cont polls lat k e last he hc2]
    exact ih (Or.inr rfl)
  · intro k e last he h
    rw [pollLoop_timeout polls lat k e last he]
    rcases h with h | h
    · exact absurd h he
    · exact h

theorem pollLoop_nonterminal (polls : Nat → JobResult) (lat : Nat → Nat)
    (hnt : ∀ k, statusIdOf (polls k) ≤ 2) :
    ∀ k e last, e < pollTimeoutMs →
      ∃ n, k < n ∧ pollLoop polls lat k e last = (some (polls (n - 1)), n) := by
  refine pollLoop.induct polls lat
    (fun k e last => e < pollTimeoutMs →
      ∃ n, k < n ∧ pollLoop polls lat k e last = (some (polls (n - 1)), n)) ?_ ?_ ?_
  · intro k e last he p hp _
    have hp2 : 2 < statusIdOf (polls k) := hp
    have := hnt k
    omega
  · intro k e last he p hc ih _
    have hc2 : ¬ 2 < statusIdOf (polls k) := hc
    by_cases he2 : e + lat k + pollIntervalMs < pollTimeoutMs
    · obtain ⟨n, hkn, hres⟩ := ih he2
      refine ⟨n, by omega, ?_⟩
      rw [pollLoop_cont polls lat k e last he hc2]
      exact hres
    · refine ⟨k + 1, by omega, ?_⟩
      rw [pollLoop_cont polls lat k e last he hc2, pollLoop_timeout _ _ _ _ _ he2]
      simp
  · intro k e last he h
    exact absurd h he

theorem jsFalsyStr_some_of_ne {s : List Char} (h : s ≠ []) : jsFalsyStr (some s) = false := by
  rw [jsFalsyStr, Option.getD_some]
  cases s with
  | nil => exact absurd rfl h
  | cons a l => rfl

/-- Unfolding of the `/api/execute` handler on the path that reaches
submission: validation passes, the language resolves, a token is returned. -/
theorem executeHandler_submit (code lang : List Char) (env : ExecEnv) (tok : List Char)
    (hcode : code ≠ []) (hlang : lang ≠ [])
    (hres : jsFalsyNum (resolveLangId lang env.catalog).1 = false)
    (hsub : env.submit = some (some tok)) :
    executeHandler (some code) (some lang) env =
      ((match (pollLoop env.polls env.lat 0 0 none).1 with
        | none => ExecResponse.serverError noResultMsg
        | some rd => ExecResponse.ok (executeOutput rd) (statusDescOf rd) tok rd),
       (if (resolveLangId lang env.catalog).2 then [UpCall.catalogQuery] else []) ++
         [UpCall.submission ((resolveLangId lang env.catalog).1.getD 0)] ++
         List.replicate (pollLoop env.polls env.lat 0 0 none).2 UpCall.statusPoll) := by
  simp only [executeHandler, jsFalsyStr_some_of_ne hcode, jsFalsyStr_some_of_ne hlang,
    Bool.or_self, Bool.false_eq_true, if_false, Option.getD_some, hres, hsub]
  cases (pollLoop env.polls env.lat 0 0 none).1 <;> rfl

/-- C4: a job is polled only while its statusId is at most 2 and polling
stops at the first poll with statusId at least 3; a job terminal on the
second poll gets exactly 2 status requests plus the single submission, and
the handler returns that terminal result. -/
theorem pollLoop_terminal_two_polls :
    (∀ (polls : Nat → JobResult) (lat : Nat → Nat) (k e : Nat) (last : Option JobResult),
        e < pollTimeoutMs → 3 ≤ statusIdOf (polls k) →
        pollLoop polls lat k e last = (some (polls k), k + 1)) ∧
    (∀ (code lang : List Char) (env : ExecEnv) (tok : List Char),
        code ≠ [] → lang ≠ [] →
        jsFalsyNum (resolveLangId lang env.catalog).1 = false →
        env.submit = some (some tok) →
        statusIdOf (env.polls 0) ≤ 2 → 3 ≤ statusIdOf (env.polls 1) →
        env.lat 0 + pollIntervalMs < pollTimeoutMs →
        executeHandler (some code) (some lang) env =
          (ExecResponse.ok (executeOutput (env.polls 1)) (statusDescOf (env.polls 1)) tok
             (env.polls 1),
           (if (resolveLangId lang env.catalog).2 then [UpCall.catalogQuery] else []) ++
             [UpCall.submission ((resolveLangId lang env.catalog).1.getD 0)] ++
             [UpCall.statusPoll, UpCall.statusPoll])) := by
  constructor
  · intro polls lat k e last he ht
    exact pollLoop_stop polls lat k e last he (by omega)
  · intro code lang env tok hcode hlang hres hsub h0 h1 hlat
    have hpoll : pollLoop env.polls env.lat 0 0 none = (some (env.polls 1), 2) := by
      rw [pollLoop_cont env.polls env.lat 0 0 none (by decide) (by omega)]
      rw [pollLoop_stop env.polls env.lat 1 (0 + env.lat 0 + pollIntervalMs)
        (some (env.polls 0)) (by omega) (by omega)]
    rw [executeHandler_submit code lang env tok hcode hlang hres hsub, hpoll]
    rfl

/-- Witness environment for C4: queued on the first poll, terminal
(statusId 3) on the second. -/
def queuedResult : JobResult :=
  { status := some ⟨some 1, some ("In Queue".toList)⟩, stdout := none, stderr := none,
    compile_output := none }

def terminalResult : JobResult :=
  { status := some ⟨some 3, some ("Accepted".toList)⟩, stdout := some ("MQ==".toList),
    stderr := none, compile_output := none }

def twoPollEnv : ExecEnv :=
  { catalog := none, submit := some (some ("tok".toList)),
    polls := fun k => if k = 0 then queuedResult else terminalResult, lat := fun _ => 0 }

/-- Witness for C4 at a concrete two-poll job. -/
theorem pollLoop_terminal_two_polls_witness :
    executeHandler (some ("print(1)".toList)) (some ("python".toList)) twoPollEnv =
      (ExecResponse.ok (executeOutput (twoPollEnv.polls 1)) (statusDescOf (twoPollEnv.polls 1))
         ("tok".toList) (twoPollEnv.polls 1),
       (if (resolveLangId ("python".toList) twoPollEnv.catalog).2 then [UpCall.catalogQuery]
        else []) ++
         [UpCall.submission ((resolveLangId ("python".toList) twoPollEnv.catalog).1.getD 0)] ++
         [UpCall.statusPoll, UpCall.statusPoll]) :=
  pollLoop_terminal_two_polls.2 _ _ twoPollEnv _ (by decide) (by decide) (by decide) rfl
    (by decide) (by decide) (by decide)

/-- C5: when no poll ever reports statusId above 2 before the 20 s timeout,
the loop ends by timeout and the handler returns the last polled snapshot as
a success; the distinct "no result" server error is returned only when no
poll response was received, which cannot happen on the handler's path. -/
theorem pollLoop_timeout_snapshot :
    (∀ (polls : Nat → JobResult) (lat : Nat → Nat),
        (∀ k, statusIdOf (polls k) ≤ 2) →
        ∃ n, 0 < n ∧ pollLoop polls lat 0 0 none = (some (polls (n - 1)), n)) ∧
    (∀ (code lang : List Char) (env : ExecEnv) (tok : List Char),
        code ≠ [] → lang ≠ [] →
        jsFalsyNum (resolveLangId lang env.catalog).1 = false →
        env.submit = some (some tok) →
        (∀ k, statusIdOf (env.polls k) ≤ 2) →
        ∃ n, 0 < n ∧
          executeHandler (some code) (some lang) env =
            (ExecResponse.ok (executeOutput (env.polls (n - 1)))
               (statusDescOf (env.polls (n - 1))) tok (env.polls (n - 1)),
             (if (resolveLangId lang env.catalog).2 then [UpCall.catalogQuery] else []) ++
               [UpCall.submission ((resolveLangId lang env.catalog).1.getD 0)] ++
               List.replicate n UpCall.statusPoll)) ∧
    (∀ (code language : Option (List Char)) (env : ExecEnv),
        (executeHandler code language env).1 ≠ ExecResponse.serverError noResultMsg) := by
  refine ⟨?_, ?_, ?_⟩
  · intro polls lat hnt
    obtain ⟨n, hn, hres⟩ := pollLoop_nonterminal polls lat hnt 0 0 none (by decide)
    exact ⟨n, hn, hres⟩
  · intro code lang env tok hcode hlang hres hsub hnt
    obtain ⟨n, hn, hpoll⟩ := pollLoop_nonterminal env.polls env.lat hnt 0 0 none (by decide)
    refine ⟨n, hn, ?_⟩
    rw [executeHandler_submit code lang env tok hcode hlang hres hsub, hpoll]
  · intro code language env
    by_cases h1 : (jsFalsyStr code || jsFalsyStr language) = true
    · simp [executeHandler, h1]
    · rw [Bool.not_eq_true] at h1
      by_cases h2 : jsFalsyNum (resolveLangId (language.getD []) env.catalog).1 = true
      · simp [executeHandler, h1, h2]
      · rw [Bool.not_eq_true] at h2
        rcases hsub : env.submit with _ | tokOpt
        · simp [executeHandler, h1, h2, hsub]
          decide
        · rcases tokOpt with _ | tok
          · simp [executeHandler, h1, h2, hsub]
            decide
          · have hsome : ((pollLoop env.polls env.lat 0 0 none).1).isSome = true :=
              pollLoop_isSome_mono env.polls env.lat 0 0 none (Or.inl (by decide))
            obtain ⟨rd, hrd⟩ := Option.isSome_iff_exists.mp hsome
            simp [executeHandler, h1, h2, hsub, hrd]

/-- Non-terminal poll result used by the C5 witness. -/
def processingResult : JobResult :=
  { status := some ⟨some 2, some ("Processing".toList)⟩, stdout := none, stderr := none,
    compile_output := none }

def stuckEnv : ExecEnv :=
  { catalog := none, submit := some (some ("tok".toList)),
    polls := fun _ => processingResult, lat := fun _ => 0 }

/-- Witness for C5: a job stuck in `Processing` still yields a success
response carrying the last snapshot. -/
theorem pollLoop_timeout_snapshot_witness :
    (∃ n, 0 < n ∧
      executeHandler (some ("print(1)".toList)) (some ("python".toList)) stuckEnv =
        (ExecResponse.ok (executeOutput (stuckEnv.polls (n - 1)))
           (statusDescOf (stuckEnv.polls (n - 1))) ("tok".toList) (stuckEnv.polls (n - 1)),
         (if (resolveLangId ("python".toList) stuckEnv.catalog).2 then [UpCall.catalogQuery]
          else []) ++
           [UpCall.submission ((resolveLangId ("python".toList) stuckEnv.catalog).1.getD 0)] ++
           List.replicate n UpCall.statusPoll)) ∧
    (executeHandler (some ("print(1)".toList)) (some ("python".toList)) stuckEnv).1 ≠
      ExecResponse.serverError noResultMsg :=
  ⟨pollLoop_timeout_snapshot.2.1 _ _ stuckEnv _ (by decide) (by decide) (by decide) rfl
     (fun k => (by decide : statusIdOf processingResult ≤ 2)),
   pollLoop_timeout_snapshot.2.2 _ _ stuckEnv⟩

/-- C10: an absent or null `status.id` in a poll response is read as
statusId 0, hence non-terminal: the loop keeps polling until the 20 s
timeout (25 status requests at zero latency) and the returned snapshot
reports the description `"Unknown"` when the status object is absent. -/
theorem statusId_default_unknown :
    (∀ r : JobResult, r.status.bind JStatus.id = none → statusIdOf r = 0) ∧
    (∀ r : JobResult, r.status = none → statusDescOf r = "Unknown".toList) ∧
    (∀ (polls : Nat → JobResult) (lat : Nat → Nat) (k e : Nat) (last : Option JobResult),
        e < pollTimeoutMs → (polls k).status.bind JStatus.id = none →
        pollLoop polls lat k e last =
          pollLoop polls lat (k + 1) (e + lat k + pollIntervalMs) (some (polls k))) ∧
    (∀ polls : Nat → JobResult, (∀ k, (polls k).status = none) →
        pollLoop polls (fun _ => 0) 0 0 none = (some (polls 24), 25)) := by
  refine ⟨?_, ?_, ?_, ?_⟩
  · intro r h
    rw [statusIdOf, h]
    rfl
  · intro r h
    rw [statusDescOf, h]
    rfl
  · intro polls lat k e last he hid
    refine pollLoop_cont polls lat k e last he ?_
    rw [statusIdOf, hid]
    decide
  · intro polls h
    have hc : ∀ k, ¬ 2 < statusIdOf (polls k) := by
      intro k
      rw [statusIdOf, h k]
      decide
    have step : ∀ k e last, e < pollTimeoutMs →
        pollLoop polls (fun _ => 0) k e last =
          pollLoop polls (fun _ => 0) (k + 1) (e + 0 + pollIntervalMs) (some (polls k)) := by
      intro k e last he
      rw [pollLoop_cont _ _ _ _ _ he (hc k)]
    norm_num [step, pollTimeoutMs, pollIntervalMs]
    rw [pollLoop_timeout _ _ _ _ _ (by decide)]

/-- Poll result with no status object at all, for the C10 witness. -/
def noStatusResult : JobResult :=
  { status := none, stdout := none, stderr := none, compile_output := none }

/-- Witness for C10 at a stream of status-less poll results. -/
theorem statusId_default_unknown_witness :
    statusIdOf noStatusResult = 0 ∧
    statusDescOf noStatusResult = "Unknown".toList ∧
    pollLoop (fun _ => noStatusResult) (fun _ => 0) 0 0 none = (some noStatusResult, 25) :=
  ⟨statusId_default_unknown.1 noStatusResult rfl,
   statusId_default_unknown.2.1 noStatusResult rfl,
   statusId_default_unknown.2.2.2 (fun _ => noStatusResult) (fun _ => rfl)⟩

/-! ## Language resolution lemmas -/

theorem resolveLangId_local {label : List Char} {id : Nat}
    (h : lookupDefault label = some id) (hid : id ≠ 0) (catalog : Option (List LangRec)) :
    resolveLangId label catalog = (some id, false) := by
  have hn : (id == 0) = false := by simpa using hid
  simp [resolveLangId, h, jsFalsyNum, hn]

theorem resolveLangId_catalog_found {label : List Char} {recs : List LangRec} {rec : LangRec}
    (hlocal : lookupDefault label = none) (hfind : catalogFind label recs = some rec) :
    resolveLangId label (some recs) = (some rec.id, true) := by
  simp [resolveLangId, hlocal, jsFalsyNum, hfind]

theorem resolveLangId_catalog_none {label : List Char} {recs : List LangRec}
    (hlocal : lookupDefault label = none) (hfind : catalogFind label recs = none) :
    resolveLangId label (some recs) = (none, true) := by
  simp [resolveLangId, hlocal, jsFalsyNum, hfind]

theorem resolveLangId_catalog_fail {label : List Char}
    (hlocal : lookupDefault label = none) :
    resolveLangId label none = (none, true) := by
  simp [resolveLangId, hlocal, jsFalsyNum]

/-- Unfolding of the `/api/execute` handler on the unresolved-language path. -/
theorem executeHandler_unsupported (code lang : List Char) (env : ExecEnv)
    (hcode : code ≠ []) (hlang : lang ≠ [])
    (hres : jsFalsyNum (resolveLangId lang env.catalog).1 = true) :
    executeHandler (some code) (some lang) env =
      (ExecResponse.clientError (unsupportedMsg lang),
       if (resolveLangId lang env.catalog).2 then [UpCall.catalogQuery] else []) := by
  simp only [executeHandler, jsFalsyStr_some_of_ne hcode, jsFalsyStr_some_of_ne hlang,
    Bool.or_self, Bool.false_eq_true, if_false, Option.getD_some, hres, if_true]

/-! ## C6: static language table -/

/-- C6: a label present in the static table resolves to the table's
identifier without the catalog being queried, and the handler issues no
catalog request for it. -/
theorem resolve_static_table_no_query :
    (∀ (label : List Char) (id : Nat), (label, id) ∈ DEFAULT_LANGUAGE_IDS →
        ∀ catalog, resolveLangId label catalog = (some id, false)) ∧
    (∀ (label : List Char) (id : Nat), (label, id) ∈ DEFAULT_LANGUAGE_IDS →
        ∀ (code : Option (List Char)) (env : ExecEnv),
          UpCall.catalogQuery ∉ (executeHandler code (some label) env).2) := by
  have hres : ∀ (label : List Char) (id : Nat), (label, id) ∈ DEFAULT_LANGUAGE_IDS →
      ∀ catalog, resolveLangId label catalog = (some id, false) := by
    intro label id h catalog
    simp only [DEFAULT_LANGUAGE_IDS, List.mem_cons, List.not_mem_nil, or_false,
      Prod.mk.injEq] at h
    rcases h with ⟨rfl, rfl⟩ | ⟨rfl, rfl⟩ | ⟨rfl, rfl⟩ | ⟨rfl, rfl⟩ | ⟨rfl, rfl⟩ <;>
      exact resolveLangId_local (by decide) (by decide) catalog
  have hid : ∀ (label : List Char) (id : Nat), (label, id) ∈ DEFAULT_LANGUAGE_IDS →
      id ≠ 0 := by
    intro label id h
    simp only [DEFAULT_LANGUAGE_IDS, List.mem_cons, List.not_mem_nil, or_false,
      Prod.mk.injEq] at h
    rcases h with ⟨_, rfl⟩ | ⟨_, rfl⟩ | ⟨_, rfl⟩ | ⟨_, rfl⟩ | ⟨_, rfl⟩ <;> decide
  refine ⟨hres, ?_⟩
  intro label id h code env
  by_cases hcode : (jsFalsyStr code || jsFalsyStr (some label)) = true
  · simp [executeHandler, hcode]
  · rw [Bool.not_eq_true] at hcode
    have hn : (id == 0) = false := by simpa using hid label id h
    have hr : resolveLangId label env.catalog = (some id, false) := hres label id h env.catalog
    rcases hsub : env.submit with _ | ⟨_ | tok⟩
    · simp [executeHandler, hcode, hr, jsFalsyNum, hn, hsub]
    · simp [executeHandler, hcode, hr, jsFalsyNum, hn, hsub]
    · cases hp : (pollLoop env.polls env.lat 0 0 none).1 <;>
        simp [executeHandler, hcode, hr, jsFalsyNum, hn, hsub, hp, List.mem_replicate]

/-- Environment with no upstream behaviour at all. -/
def plainEnv : ExecEnv :=
  { catalog := none, submit := none, polls := fun _ => noStatusResult, lat := fun _ => 0 }

/-- Witness for C6 at the `python` table entry. -/
theorem resolve_static_table_no_query_witness :
    (("python".toList, 71) ∈ DEFAULT_LANGUAGE_IDS ∧
      resolveLangId ("python".toList)
          (some [{ id := 999, name := some ("python3".toList), slug := none }]) =
        (some 71, false)) ∧
    UpCall.catalogQuery ∉
      (executeHandler (some ("print(1)".toList)) (some ("python".toList)) plainEnv).2 :=
  ⟨⟨by decide, resolve_static_table_no_query.1 _ _ (by decide) _⟩,
   resolve_static_table_no_query.2 _ 71 (by decide) _ plainEnv⟩

/-! ## C7: catalog fallback -/

def zeroIdCatalog : List LangRec :=
  [{ id := 0, name := some ("zig".toList), slug := some ("zig".toList) }]

def zeroIdEnv : ExecEnv :=
  { catalog := some zeroIdCatalog, submit := some (some ("tok".toList)),
    polls := fun _ => noStatusResult, lat := fun _ => 0 }

/-- Counterexample to C7 as stated: with a catalog whose first (and only)
record matches the label but carries id 0, a matching record exists, yet
the handler rejects the request as an unsupported language because the id
is falsy in JavaScript. -/
theorem catalog_zero_id_cex :
    (catalogFind ("zig".toList) zeroIdCatalog).isSome = true ∧
    executeHandler (some ("x".toList)) (some ("zig".toList)) zeroIdEnv =
      (ExecResponse.clientError (unsupportedMsg ("zig".toList)), [UpCall.catalogQuery]) := by
  constructor <;> decide

/-- C7 (amended): a label absent from the static table triggers a catalog
query; the resolver returns the id of the first record whose lowercased
name or slug contains the lowercased label, provided that id is nonzero
(truthy); if no record matches — or on the id-0 edge — the handler answers
with the 400-equivalent unsupported-language error and no submission is
made. -/
theorem catalog_fallback_resolution :
    (∀ (label : List Char) (catalog : Option (List LangRec)),
        lookupDefault label = none → (resolveLangId label catalog).2 = true) ∧
    (∀ (label : List Char) (recs : List LangRec) (rec : LangRec),
        catalogFind label recs = some rec →
        catalogPred label rec = true ∧
        ∃ pre suf, recs = pre ++ rec :: suf ∧ ∀ q ∈ pre, catalogPred label q = false) ∧
    (∀ (label : List Char) (recs : List LangRec) (rec : LangRec),
        lookupDefault label = none → catalogFind label recs = some rec →
        resolveLangId label (some recs) = (some rec.id, true)) ∧
    (∀ (code label : List Char) (env : ExecEnv) (recs : List LangRec),
        code ≠ [] → label ≠ [] → lookupDefault label = none →
        env.catalog = some recs → catalogFind label recs = none →
        executeHandler (some code) (some label) env =
          (ExecResponse.clientError (unsupportedMsg label), [UpCall.catalogQuery])) := by
  refine ⟨?_, ?_, ?_, ?_⟩
  · intro label catalog hlocal
    rcases catalog with _ | recs
    · rw [resolveLangId_catalog_fail hlocal]
    · rcases hfind : catalogFind label recs with _ | rec
      · rw [resolveLangId_catalog_none hlocal hfind]
      · rw [resolveLangId_catalog_found hlocal hfind]
  · intro label recs rec hfind
    rw [catalogFind, List.find?_eq_some] at hfind
    obtain ⟨hp, pre, suf, heq, hall⟩ := hfind
    refine ⟨hp, pre, suf, heq, fun q hq => ?_⟩
    have := hall q hq
    simpa using this
  · intro label recs rec hlocal hfind
    exact resolveLangId_catalog_found hlocal hfind
  · intro code label env recs hcode hlabel hlocal hcat hfind
    have hres : resolveLangId label env.catalog = (none, true) := by
      rw [hcat]
      exact resolveLangId_catalog_none hlocal hfind
    rw [executeHandler_unsupported code label env hcode hlabel (by rw [hres]; rfl), hres]
    rfl

def emptyCatalogEnv : ExecEnv :=
  { catalog := some [], submit := none, polls := fun _ => noStatusResult, lat := fun _ => 0 }

/-- Witness for C7 (amended) at a label absent from the table and an empty
catalog. -/
theorem catalog_fallback_resolution_witness :
    ((resolveLangId ("zig".toList) (some zeroIdCatalog)).2 = true ∧
      resolveLangId ("zig".toList) (some zeroIdCatalog) =
        (some ({ id := 0, name := some ("zig".toList), slug := some ("zig".toList) }
            : LangRec).id, true)) ∧
    executeHandler (some ("x".toList)) (some ("zig".toList)) emptyCatalogEnv =
      (ExecResponse.clientError (unsupportedMsg ("zig".toList)), [UpCall.catalogQuery]) :=
  ⟨⟨catalog_fallback_resolution.1 _ (some zeroIdCatalog) (by decide),
    catalog_fallback_resolution.2.2.1 _ zeroIdCatalog _ (by decide) (by decide)⟩,
   catalog_fallback_resolution.2.2.2 _ _ emptyCatalogEnv [] (by decide) (by decide)
     (by decide) rfl (by decide)⟩

/-! ## C8: catalog network failure behaves as no match -/

/-- C8: a failed catalog query is treated exactly like an empty (no-match)
catalog: same response, and for well-formed input the same 400-equivalent
unsupported-language error, never a distinct 500-equivalent one. -/
theorem catalog_failure_as_no_match :
    ∀ (label : List Char) (code : Option (List Char)) (env : ExecEnv),
      lookupDefault label = none →
      (executeHandler code (some label)
          { catalog := none, submit := env.submit, polls := env.polls, lat := env.lat } =
        executeHandler code (some label)
          { catalog := some [], submit := env.submit, polls := env.polls, lat := env.lat }) ∧
      (∀ c, code = some c → c ≠ [] → label ≠ [] →
        executeHandler code (some label)
            { catalog := none, submit := env.submit, polls := env.polls, lat := env.lat } =
          (ExecResponse.clientError (unsupportedMsg label), [UpCall.catalogQuery])) := by
  intro label code env hlocal
  have e1 : resolveLangId label none = (none, true) := resolveLangId_catalog_fail hlocal
  have e2 : resolveLangId label (some []) = (none, true) :=
    resolveLangId_catalog_none hlocal rfl
  constructor
  · simp only [executeHandler, Option.getD_some, e1, e2]
  · intro c hc hcne hlne
    subst hc
    have hres : resolveLangId label
        ({ catalog := none, submit := env.submit, polls := env.polls, lat := env.lat }
          : ExecEnv).catalog = (none, true) := e1
    rw [executeHandler_unsupported c label _ hcne hlne (by rw [hres]; rfl), hres]
    rfl

/-- Witness for C8: the `zig` label with a failed catalog query. -/
theorem catalog_failure_as_no_match_witness :
    (executeHandler (some ("x".toList)) (some ("zig".toList))
        { catalog := none, submit := plainEnv.submit, polls := plainEnv.polls,
          lat := plainEnv.lat } =
      executeHandler (some ("x".toList)) (some ("zig".toList))
        { catalog := some [], submit := plainEnv.submit, polls := plainEnv.polls,
          lat := plainEnv.lat }) ∧
    executeHandler (some ("x".toList)) (some ("zig".toList))
        { catalog := none, submit := plainEnv.submit, polls := plainEnv.polls,
          lat := plainEnv.lat } =
      (ExecResponse.clientError (unsupportedMsg ("zig".toList)), [UpCall.catalogQuery]) :=
  ⟨(catalog_failure_as_no_match ("zig".toList) (some ("x".toList)) plainEnv (by decide)).1,
   (catalog_failure_as_no_match ("zig".toList) (some ("x".toList)) plainEnv (by decide)).2
     ("x".toList) rfl (by decide) (by decide)⟩

/-! ## C9: input validation before any upstream call -/

/-- C9: a request body missing `code` or missing `language` gets the
400-equivalent "Code and language required" response from each of the three
endpoints, with no outbound call made. -/
theorem missing_fields_400_no_calls :
    ∀ (code language : Option (List Char)) (gem : Option (Option (List Char)))
      (env : ExecEnv),
      code = none ∨ language = none →
      explainHandler code language gem = (TextResponse.clientError requiredMsg, []) ∧
      improveHandler code language gem = (TextResponse.clientError requiredMsg, []) ∧
      executeHandler code language env = (ExecResponse.clientError requiredMsg, []) := by
  intro code language gem env h
  have hf : (jsFalsyStr code || jsFalsyStr language) = true := by
    rcases h with rfl | rfl
    · simp [jsFalsyStr]
    · simp [jsFalsyStr]
  refine ⟨?_, ?_, ?_⟩ <;> simp [explainHandler, improveHandler, executeHandler, hf]

/-- Witness for C9: a body with `language` only. -/
theorem missing_fields_400_no_calls_witness :
    explainHandler none (some ("python".toList)) (some (some ("text".toList))) =
      (TextResponse.clientError requiredMsg, []) ∧
    improveHandler none (some ("python".toList)) (some (some ("text".toList))) =
      (TextResponse.clientError requiredMsg, []) ∧
    executeHandler none (some ("python".toList)) plainEnv =
      (ExecResponse.clientError requiredMsg, []) :=
  missing_fields_400_no_calls none (some ("python".toList)) (some (some ("text".toList)))
    plainEnv (Or.inl rfl)

end DevMate
